import Mathlib

/-!
Shallow embedding of the swap/quote core of the `plugin-evm` package:
the token and network registries (`adapters/tokenRegistry.ts`,
`NetworkRegistry`), the quote engine, transaction builder and transaction
monitor (`actions/swapUtils.ts`), and the balance/portfolio aggregator
(`providers/balances.ts`).

Modelling conventions:
* A JavaScript `Map` is modelled as an association list with insert-or-
  replace-in-place semantics (`mapSet`), matching `Map.set` which keeps the
  insertion position of an existing key.
* `bigint` amounts are modelled as `Nat` (all amounts in the source are
  non-negative); `BigInt` division truncates toward zero, which on
  non-negative operands agrees with `Nat` division.
* JavaScript numbers that only carry price/balance data are modelled as
  exact rationals (`ℚ`); the source computes them in IEEE doubles, and no
  claim in scope depends on rounding of those fields.
* Remote collaborators (RPC contract reads, the receipt wait, the HTTP
  price API) are modelled as environment records of functions returning
  `Except String _` (an error models a rejected promise).  Functions also
  return a trace of the remote calls they issue, so that statements about
  which contract function is called, with which arguments and how many
  times, are expressible.
* `String.toUpperCase` / `toLowerCase` on the ASCII symbols used by the
  registries are modelled by mapping core `Char.toUpper` / `Char.toLower`
  over the characters.
-/

namespace GodsEliza

/-- Lookup in the association-list model of a JavaScript `Map`
(first binding of the key wins, as a `Map` has at most one). -/
def mapGet {α β : Type} [DecidableEq α] (k : α) : List (α × β) → Option β
  | [] => none
  | (k', v) :: rest => if k' = k then some v else mapGet k rest

/-- Model of `Map.set`: replace the binding in place if the key is
present, otherwise append the new binding (insertion order). -/
def mapSet {α β : Type} [DecidableEq α] (k : α) (v : β) : List (α × β) → List (α × β)
  | [] => [(k, v)]
  | (k', v') :: rest => if k' = k then (k, v) :: rest else (k', v') :: mapSet k v rest

/-- Model of `Map.has`. -/
def mapContains {α β : Type} [DecidableEq α] (k : α) (l : List (α × β)) : Bool :=
  (mapGet k l).isSome

/-- The keys of the association-list map, in order. -/
def mapKeys {α β : Type} (l : List (α × β)) : List α :=
  l.map Prod.fst

/-- Number of bindings a key has in the association list (a well-formed
`Map` image has at most one). -/
def countKey {α β : Type} [DecidableEq α] (k : α) (l : List (α × β)) : Nat :=
  l.countP (fun p => decide (p.1 = k))

/-- Model of `String.toUpperCase` on the ASCII strings used as registry
keys: uppercase every character with core `Char.toUpper`. -/
def strUpper (s : String) : String :=
  String.mk (s.data.map Char.toUpper)

/-- Model of `String.toLowerCase`, used for address comparison. -/
def strLower (s : String) : String :=
  String.mk (s.data.map Char.toLower)

/-- One character is a casing variant of another: it is the same
character, or its basic-latin uppercase or lowercase form. -/
def charCaseVariant (c d : Char) : Bool :=
  d == c || d == c.toUpper || d == c.toLower

/-- Character lists that agree position by position up to letter case. -/
def charsCaseVariant : List Char → List Char → Bool
  | [], [] => true
  | c :: cs, d :: ds => charCaseVariant c d && charsCaseVariant cs ds
  | _, _ => false

/-- A string is a casing variant of another when they have the same
characters up to upper/lower case (any mix). -/
def caseVariant (s t : String) : Bool :=
  charsCaseVariant s.data t.data

/-- Decidable equality for `Except`, so that concrete runs of the
embedded functions can be checked by evaluation. -/
instance {ε α : Type} [DecidableEq ε] [DecidableEq α] : DecidableEq (Except ε α) := fun a b =>
  match a, b with
  | Except.error e, Except.error e' =>
    if h : e = e' then isTrue (h ▸ rfl) else isFalse (fun hc => h (by injection hc))
  | Except.ok x, Except.ok y =>
    if h : x = y then isTrue (h ▸ rfl) else isFalse (fun hc => h (by injection hc))
  | Except.error _, Except.ok _ => isFalse (fun hc => Except.noConfusion hc)
  | Except.ok _, Except.error _ => isFalse (fun hc => Except.noConfusion hc)

/-! Token registry (`adapters/tokenRegistry.ts`). -/

/-- Token metadata as registered with the token registry. -/
structure TokenData where
  chainId : Nat
  symbol : String
  address : String
  decimals : Nat
  name : String
deriving DecidableEq, Repr

/-- State of the `TokenRegistry` singleton: `tokens` maps a chain id to
the per-network symbol map; `addressMap` is the (never-read) secondary
index the source also maintains. -/
structure TokenRegistry where
  tokens : List (Nat × List (String × TokenData))
  addressMap : List (String × List (String × TokenData))
deriving DecidableEq, Repr

/-- The freshly constructed registry. -/
def TokenRegistry.empty : TokenRegistry :=
  { tokens := [], addressMap := [] }

/-- Embedding of `TokenRegistry.registerToken`: ensure the per-chain map
exists, ensure the `addressMap` slot exists (the source only ever creates
an empty map there), store the metadata under the uppercased symbol, and
return `true`. -/
def TokenRegistry.registerToken (st : TokenRegistry) (metadata : TokenData) :
    Bool × TokenRegistry :=
  let tokens :=
    if mapContains metadata.chainId st.tokens then st.tokens
    else mapSet metadata.chainId [] st.tokens
  let addressMap :=
    if mapContains metadata.address st.addressMap then st.addressMap
    else mapSet metadata.address [] st.addressMap
  let networkTokens := (mapGet metadata.chainId tokens).getD []
  (true,
   { tokens := mapSet metadata.chainId
       (mapSet (strUpper metadata.symbol) metadata networkTokens) tokens,
     addressMap := addressMap })

/-- Embedding of `TokenRegistry.getToken`: look up the chain map, then the
uppercased symbol. -/
def TokenRegistry.getToken (st : TokenRegistry) (symbol : String) (chainId : Nat) :
    Option TokenData :=
  match mapGet chainId st.tokens with
  | none => none
  | some networkTokens => mapGet (strUpper symbol) networkTokens

/-- Embedding of `TokenRegistry.getNetworkTokens`. -/
def TokenRegistry.getNetworkTokens (st : TokenRegistry) (chainId : Nat) : List TokenData :=
  ((mapGet chainId st.tokens).getD []).map Prod.snd

/-- Well-formedness of a registry state: every per-chain symbol map has
no duplicate keys.  This holds for every state reachable from `empty`
(a JavaScript `Map` cannot hold a key twice) and is preserved by
`registerToken`. -/
def TokenRegistry.InnerNodup (st : TokenRegistry) : Prop :=
  ∀ cid inner, mapGet cid st.tokens = some inner → (mapKeys inner).Nodup

/-! Network registry (`NetworkRegistry`). -/

/-- DEX protocol configuration for one chain. -/
structure ProtocolConfig where
  version : String
  routerAddress : String
  quoterAddress : Option String
  defaultFeeBps : Nat
deriving DecidableEq, Repr

/-- Native-currency descriptor embedded in the network metadata. -/
structure NativeCurrency where
  name : String
  symbol : String
  decimals : Nat
  address : Option String
deriving DecidableEq, Repr

/-- Network metadata as registered with the network registry. -/
structure NetworkMetadata where
  chainId : Nat
  name : String
  rpcUrl : String
  nativeCurrency : NativeCurrency
  blockExplorerUrl : String
  enabled : Bool
deriving DecidableEq, Repr

/-- State of the `NetworkRegistry` singleton. -/
structure NetworkRegistry where
  networks : List (Nat × NetworkMetadata)
  protocols : List (Nat × ProtocolConfig)
deriving DecidableEq, Repr

/-- The freshly constructed registry. -/
def NetworkRegistry.empty : NetworkRegistry :=
  { networks := [], protocols := [] }

/-- Embedding of `NetworkRegistry.registerNetwork`: always store the
metadata under its chain id; store the protocol configuration only when
one is passed. -/
def NetworkRegistry.registerNetwork (st : NetworkRegistry)
    (metadata : NetworkMetadata) (protocolConfig : Option ProtocolConfig) :
    NetworkRegistry :=
  { networks := mapSet metadata.chainId metadata st.networks,
    protocols :=
      match protocolConfig with
      | some pc => mapSet metadata.chainId pc st.protocols
      | none => st.protocols }

/-- Embedding of `NetworkRegistry.getNetwork`. -/
def NetworkRegistry.getNetwork (st : NetworkRegistry) (chainId : Nat) :
    Option NetworkMetadata :=
  mapGet chainId st.networks

/-- Embedding of `NetworkRegistry.getProtocolConfig`. -/
def NetworkRegistry.getProtocolConfig (st : NetworkRegistry) (chainId : Nat) :
    Option ProtocolConfig :=
  mapGet chainId st.protocols

/-! Quote engine, transaction builder and transaction monitor
(`actions/swapUtils.ts`). -/

/-- A remote call issued through the RPC client, recorded in traces. -/
inductive RemoteCall where
  | decimalsRead (token : String)
  | quoterQuote (quoter tokenIn tokenOut : String) (amountIn fee : Nat)
  | routerAmounts (router : String) (amountIn : Nat) (path : List String)
  | waitReceipt (hash : String) (confirmations : Nat)
deriving DecidableEq, Repr

/-- Receipt returned by the receipt-wait collaborator. -/
structure Receipt where
  status : String
deriving DecidableEq, Repr

/-- Environment of collaborators seen by `swapUtils`: the resolved
protocol configuration and network metadata for the ambient chain id, the
pure `parseUnits` helper of the client library, and the remote reads,
each returning `Except String _` (an error is a rejected promise). -/
structure SwapEnv where
  protocolConfig : Option ProtocolConfig
  network : Option NetworkMetadata
  parseUnits : String → Nat → Nat
  decimalsOf : String → Except String Nat
  quoter : String → String → String → Nat → Nat → Except String (Nat × Nat × Nat × Nat)
  router : String → Nat → List String → Except String (List Nat)
  wait : String → Nat → Except String Receipt
  nowSeconds : Nat

/-- The default slippage constant `SLIPPAGE_BPS = 50` (0.5%). -/
def SLIPPAGE_BPS : Nat := 50

/-- Result record of `getQuote`.  `priceImpact` is modelled exactly over
`ℚ` where the source computes in IEEE doubles; no claim depends on it. -/
structure SwapQuoteResult where
  amountIn : Nat
  amountOut : Nat
  priceImpact : ℚ
  route : List String
deriving DecidableEq, Repr

/-- Errors of `getQuote`: the missing-protocol-configuration error, and a
propagated remote read failure (the spec taxonomy's `QuoteUnavailable`). -/
inductive QuoteError where
  | configurationError
  | quoteUnavailable (e : String)
deriving DecidableEq, Repr

/-- Embedding of `calculatePriceImpact`: absolute percentage difference
between input and output amount. -/
def calculatePriceImpact (amountIn amountOut : Nat) : ℚ :=
  |((amountIn : ℚ) - (amountOut : ℚ)) / (amountIn : ℚ) * 100|

/-- Embedding of `getTokenDecimals`: one `decimals` contract read. -/
def getTokenDecimals (env : SwapEnv) (tokenAddress : String) :
    Except String Nat × List RemoteCall :=
  (env.decimalsOf tokenAddress, [RemoteCall.decimalsRead tokenAddress])

/-- Embedding of `getQuote`: resolve the protocol configuration (throw if
absent), read the base token's decimals, convert the human amount with
`parseUnits`, then either query the v3 quoter (`quoteExactInputSingle`
with fee `defaultFeeBps * 100`) or the v2 router (`getAmountsOut` with
`(amountIn, path)` and the second returned element as output).  The
second component is the trace of remote calls issued. -/
def getQuote (env : SwapEnv) (baseToken outputToken : String) (amount : String) :
    Except QuoteError SwapQuoteResult × List RemoteCall :=
  match env.protocolConfig with
  | none => (Except.error QuoteError.configurationError, [])
  | some protocolConfig =>
    match env.decimalsOf baseToken with
    | Except.error e =>
        (Except.error (QuoteError.quoteUnavailable e), [RemoteCall.decimalsRead baseToken])
    | Except.ok decimals =>
      let amountIn := env.parseUnits amount decimals
      let path := [baseToken, outputToken]
      if protocolConfig.version = "v3" then
        let quoterAddr := protocolConfig.quoterAddress.getD ""
        let fee := protocolConfig.defaultFeeBps * 100
        match env.quoter quoterAddr baseToken outputToken amountIn fee with
        | Except.error e =>
            (Except.error (QuoteError.quoteUnavailable e),
             [RemoteCall.decimalsRead baseToken,
              RemoteCall.quoterQuote quoterAddr baseToken outputToken amountIn fee])
        | Except.ok quoterResult =>
            (Except.ok
              { amountIn := amountIn,
                amountOut := quoterResult.1,
                priceImpact := calculatePriceImpact amountIn quoterResult.1,
                route := path },
             [RemoteCall.decimalsRead baseToken,
              RemoteCall.quoterQuote quoterAddr baseToken outputToken amountIn fee])
      else
        match env.router protocolConfig.routerAddress amountIn path with
        | Except.error e =>
            (Except.error (QuoteError.quoteUnavailable e),
             [RemoteCall.decimalsRead baseToken,
              RemoteCall.routerAmounts protocolConfig.routerAddress amountIn path])
        | Except.ok amountsOut =>
            (Except.ok
              { amountIn := amountIn,
                amountOut := amountsOut.getD 1 0,
                priceImpact := calculatePriceImpact amountIn (amountsOut.getD 1 0),
                route := path },
             [RemoteCall.decimalsRead baseToken,
              RemoteCall.routerAmounts protocolConfig.routerAddress amountIn path])

/-- Errors of `executeSwap`: missing network metadata, a transaction
whose receipt reports non-success (carrying the observed status), and a
propagated wait failure. -/
inductive ExecError where
  | networkNotFound
  | transactionFailed (status : String)
  | remote (e : String)
deriving DecidableEq, Repr

/-- Embedding of `executeSwap`: resolve the network, wait once for the
receipt with 2 confirmations, and classify the receipt status.  The
catch block of the source only logs and rethrows, so it is not modelled
separately. -/
def executeSwap (env : SwapEnv) (txHash : String) :
    Except ExecError String × List RemoteCall :=
  match env.network with
  | none => (Except.error ExecError.networkNotFound, [])
  | some _ =>
    match env.wait txHash 2 with
    | Except.error e =>
        (Except.error (ExecError.remote e), [RemoteCall.waitReceipt txHash 2])
    | Except.ok receipt =>
        if receipt.status = "success" then
          (Except.ok txHash, [RemoteCall.waitReceipt txHash 2])
        else
          (Except.error (ExecError.transactionFailed receipt.status),
           [RemoteCall.waitReceipt txHash 2])

/-- Arguments of the encoded router call, by protocol shape. -/
inductive SwapCallArgs where
  | v3Single (tokenIn tokenOut : String) (fee : Nat) (recipient : String)
      (amountIn amountOutMinimum sqrtPriceLimitX96 : Nat)
  | v2ETHForTokens (amountOutMin : Nat) (path : List String) (toAddr : String) (deadline : Nat)
  | v2TokensFor (amountIn amountOutMin : Nat) (path : List String) (toAddr : String) (deadline : Nat)
deriving DecidableEq, Repr

/-- The input of `encodeFunctionData` (the hex encoding itself is done by
the client library): the selected function name and its arguments. -/
structure EncodedCall where
  functionName : String
  args : SwapCallArgs
deriving DecidableEq, Repr

/-- Return value of `prepareSwapTransaction`. -/
structure PreparedTx where
  toAddr : String
  data : EncodedCall
  value : Option Nat
deriving DecidableEq, Repr

/-- Errors of `prepareSwapTransaction`. -/
inductive PrepareError where
  | configurationError
  | remote (e : String)
  | quote (e : QuoteError)
deriving DecidableEq, Repr

/-- Whether a token address equals the network's native-currency address,
compared lowercased; a missing native address compares unequal (in the
source, `string === undefined` is false). -/
def isNativeTokenOf (network : NetworkMetadata) (token : String) : Bool :=
  match network.nativeCurrency.address with
  | some a => strLower token == strLower a
  | none => false

/-- The minimum-output argument of an encoded swap call. -/
def SwapCallArgs.amountOutMinArg : SwapCallArgs → Nat
  | SwapCallArgs.v3Single _ _ _ _ _ amountOutMinimum _ => amountOutMinimum
  | SwapCallArgs.v2ETHForTokens amountOutMin _ _ _ => amountOutMin
  | SwapCallArgs.v2TokensFor _ amountOutMin _ _ _ => amountOutMin

/-- The fee argument of an encoded swap call (only v3 calls carry one). -/
def SwapCallArgs.feeArg : SwapCallArgs → Option Nat
  | SwapCallArgs.v3Single _ _ fee _ _ _ _ => some fee
  | _ => none

/-- Embedding of `prepareSwapTransaction`: resolve protocol and network
configuration (throw if either is absent), detect a native-currency
input, read the input token's decimals when it is not native (the value
is unused but the remote read is issued), obtain a fresh quote, apply the
slippage `quoteOut * (10000 - SLIPPAGE_BPS) / 10000`, compute the
deadline `now + 1200`, select the function name from the protocol
version and native-in/native-out flags, and return the router address,
the encoded call and the attached value for a native input. -/
def prepareSwapTransaction (env : SwapEnv)
    (inputToken outputToken : String) (amount : String) (walletAddress : String) :
    Except PrepareError PreparedTx × List RemoteCall :=
  match env.protocolConfig, env.network with
  | some protocolConfig, some network =>
    let nativeToken := network.nativeCurrency
    let isNativeToken := isNativeTokenOf network inputToken
    let decRes : Except String Nat × List RemoteCall :=
      if isNativeToken then (Except.ok nativeToken.decimals, [])
      else (env.decimalsOf inputToken, [RemoteCall.decimalsRead inputToken])
    match decRes.1 with
    | Except.error e => (Except.error (PrepareError.remote e), decRes.2)
    | Except.ok _ =>
      match getQuote env inputToken outputToken amount with
      | (Except.error e, qtrace) =>
          (Except.error (PrepareError.quote e), decRes.2 ++ qtrace)
      | (Except.ok quote, qtrace) =>
        let amountOutMin := quote.amountOut * (10000 - SLIPPAGE_BPS) / 10000
        let deadline := env.nowSeconds + 1200
        let path := [inputToken, outputToken]
        let call : EncodedCall :=
          if protocolConfig.version = "v3" then
            { functionName := if isNativeToken then "exactInputSingleETH" else "exactInputSingle",
              args := SwapCallArgs.v3Single inputToken outputToken
                (protocolConfig.defaultFeeBps * 100) walletAddress
                quote.amountIn amountOutMin 0 }
          else if isNativeToken then
            { functionName := "swapExactETHForTokens",
              args := SwapCallArgs.v2ETHForTokens amountOutMin path walletAddress deadline }
          else if isNativeTokenOf network outputToken then
            { functionName := "swapExactTokensForETH",
              args := SwapCallArgs.v2TokensFor quote.amountIn amountOutMin path walletAddress deadline }
          else
            { functionName := "swapExactTokensForTokens",
              args := SwapCallArgs.v2TokensFor quote.amountIn amountOutMin path walletAddress deadline }
        (Except.ok
          { toAddr := protocolConfig.routerAddress,
            data := call,
            value := if isNativeToken then some quote.amountIn else none },
         decRes.2 ++ qtrace)
  | _, _ => (Except.error PrepareError.configurationError, [])

/-! Balance/portfolio aggregator (`providers/balances.ts`). -/

/-- The `contracts` object of a chain configuration: its string-valued
properties (token symbol to address entries, and possibly the
`dexRouter` and `wrappedNative` keys, which `Object.entries` also
yields), plus the optional `priceFeeds` object mapping a token address
to a feed address. -/
structure ContractsConfig where
  entries : List (String × String)
  priceFeeds : Option (List (String × String))
deriving DecidableEq, Repr

/-- Chain configuration handed to `BalancesProvider`. -/
structure ChainConfig where
  chainId : Nat
  name : String
  rpcUrl : String
  nativeCurrencySymbol : String
  nativeCurrencyDecimals : Nat
  contracts : ContractsConfig
deriving DecidableEq, Repr

/-- One entry of the returned portfolio.  `balance`, `price` and `value`
are decimal strings in the source, modelled by their exact numeric
value. -/
structure TokenBalance where
  token : String
  symbol : String
  balance : ℚ
  decimals : Nat
  price : ℚ
  value : ℚ
deriving DecidableEq, Repr

/-- The aggregated portfolio returned by `getBalances`. -/
structure WalletPortfolio where
  totalValue : ℚ
  nativeBalance : ℚ
  tokens : List TokenBalance
deriving DecidableEq, Repr

/-- Remote collaborators of `BalancesProvider`: the native balance read,
the per-token `balanceOf` and `decimals` reads, the oracle feed read
(`latestAnswer` and feed `decimals` together), the DEX router
`getAmountsOut` read, and the HTTP native-price API. -/
structure BalancesEnv where
  getBalance : String → Except String Nat
  balanceOf : String → String → Except String Nat
  readDecimals : String → Except String Nat
  latestAnswer : String → Except String (Int × Nat)
  getAmountsOutDex : String → Nat → List String → Except String (List Nat)
  fetchNativePriceUsd : String → Except String ℚ

/-- Embedding of viem's `formatUnits`: scale an integer down by the
token's decimals (exactly, over `ℚ`). -/
def formatUnits (value : Int) (decimals : Nat) : ℚ :=
  (value : ℚ) / (10 : ℚ) ^ decimals

/-- Embedding of `getNativePrice`: query the price API for the
lowercased native symbol; any failure degrades to price `'0'`. -/
def getNativePrice (env : BalancesEnv) (c : ChainConfig) : ℚ :=
  match env.fetchNativePriceUsd (strLower c.nativeCurrencySymbol) with
  | Except.ok p => p
  | Except.error _ => 0

/-- The `priceFeeds` map of the configuration (empty when absent). -/
def priceFeedsOf (c : ChainConfig) : List (String × String) :=
  c.contracts.priceFeeds.getD []

/-- Embedding of `getPriceFromOracle`: read `latestAnswer` and `decimals`
from the configured feed; a missing feed or a failed read degrades to
price `'0'`. -/
def getPriceFromOracle (env : BalancesEnv) (c : ChainConfig) (tokenAddress : String) : ℚ :=
  match mapGet tokenAddress (priceFeedsOf c) with
  | none => 0
  | some feedAddress =>
    match env.latestAnswer feedAddress with
    | Except.ok pd => formatUnits pd.1 pd.2
    | Except.error _ => 0

/-- Embedding of `getPriceFromDex`: quote 10^18 smallest units of the
token against the wrapped native token on the configured router and
scale by the native price; a missing router or a failed read degrades to
price `'0'`.  A missing `wrappedNative` key makes the source pass
`undefined` in the path, which the client rejects; the environment
decides the outcome of that call. -/
def getPriceFromDex (env : BalancesEnv) (c : ChainConfig) (tokenAddress : String) : ℚ :=
  match mapGet "dexRouter" c.contracts.entries with
  | none => 0
  | some dexRouter =>
    let wrappedNative := (mapGet "wrappedNative" c.contracts.entries).getD "undefined"
    match env.getAmountsOutDex dexRouter (10 ^ 18) [tokenAddress, wrappedNative] with
    | Except.ok amounts =>
        formatUnits (amounts.getD 1 0 : Int) 18 * getNativePrice env c
    | Except.error _ => 0

/-- Embedding of `getTokenPrice`: oracle first when a feed is configured
for the token, DEX router otherwise. -/
def getTokenPrice (env : BalancesEnv) (c : ChainConfig) (tokenAddress : String) : ℚ :=
  if (mapGet tokenAddress (priceFeedsOf c)).isSome then
    getPriceFromOracle env c tokenAddress
  else
    getPriceFromDex env c tokenAddress

/-- The `contracts` entries that `getTokenBalances` treats as tokens:
everything except the `priceFeeds` and `dexRouter` keys. -/
def tokenEntriesOf (c : ChainConfig) : List (String × String) :=
  c.contracts.entries.filter (fun p => p.1 != "priceFeeds" && p.1 != "dexRouter")

/-- The portfolio entry built for one `(symbol, address)` contract entry
from its raw balance and decimals. -/
def mkTokenEntry (env : BalancesEnv) (c : ChainConfig)
    (symbol tokenAddress : String) (balance decimals : Nat) : TokenBalance :=
  let formattedBalance := formatUnits (balance : Int) decimals
  let price := getTokenPrice env c tokenAddress
  { token := tokenAddress,
    symbol := symbol,
    balance := formattedBalance,
    decimals := decimals,
    price := price,
    value := formattedBalance * price }

/-- The per-entry reads and mapping of `getTokenBalances` (the source
fans the reads out with `Promise.all`; a single failing balance or
decimals read rejects the whole aggregate). -/
def getTokenBalancesAux (env : BalancesEnv) (c : ChainConfig) (address : String) :
    List (String × String) → Except String (List TokenBalance)
  | [] => Except.ok []
  | (symbol, tokenAddress) :: rest =>
    match env.balanceOf tokenAddress address with
    | Except.error e => Except.error e
    | Except.ok balance =>
      match env.readDecimals tokenAddress with
      | Except.error e => Except.error e
      | Except.ok decimals =>
        match getTokenBalancesAux env c address rest with
        | Except.error e => Except.error e
        | Except.ok rest' =>
            Except.ok (mkTokenEntry env c symbol tokenAddress balance decimals :: rest')

/-- Embedding of `getTokenBalances`: read balance, decimals and price for
every configured token entry, then keep only the entries with a positive
balance. -/
def getTokenBalances (env : BalancesEnv) (c : ChainConfig) (address : String) :
    Except String (List TokenBalance) :=
  match getTokenBalancesAux env c address (tokenEntriesOf c) with
  | Except.error e => Except.error e
  | Except.ok balances => Except.ok (balances.filter (fun b => decide (0 < b.balance)))

/-- The native-currency portfolio entry (the zero address is the
source's ETH address convention). -/
def mkNativeEntry (env : BalancesEnv) (c : ChainConfig) (nativeBalance : Nat) : TokenBalance :=
  let formattedNativeBalance := formatUnits (nativeBalance : Int) c.nativeCurrencyDecimals
  let nativePrice := getNativePrice env c
  { token := "0x0000000000000000000000000000000000000000",
    symbol := c.nativeCurrencySymbol,
    balance := formattedNativeBalance,
    decimals := c.nativeCurrencyDecimals,
    price := nativePrice,
    value := formattedNativeBalance * nativePrice }

/-- Embedding of `getBalances`: read the native balance, aggregate the
token balances, resolve the native price, prepend the native entry and
sum the total value.  A failing native-balance, token-balance or
token-decimals read rethrows; price lookups never fail (they degrade to
`'0'` inside the price helpers). -/
def getBalances (env : BalancesEnv) (c : ChainConfig) (address : String) :
    Except String WalletPortfolio :=
  match env.getBalance address with
  | Except.error e => Except.error e
  | Except.ok nativeBalance =>
    match getTokenBalances env c address with
    | Except.error e => Except.error e
    | Except.ok tokenBalances =>
      let nativeToken := mkNativeEntry env c nativeBalance
      Except.ok
        { totalValue := nativeToken.value + (tokenBalances.map TokenBalance.value).sum,
          nativeBalance := nativeToken.balance,
          tokens := nativeToken :: tokenBalances }

/-- A failed price lookup for a token, as an input condition: the oracle
path is taken and the feed read rejects, or the DEX path is taken and the
router read rejects (a missing router also yields no price). -/
def PriceLookupFails (env : BalancesEnv) (c : ChainConfig) (tokenAddress : String) : Prop :=
  match mapGet tokenAddress (priceFeedsOf c) with
  | some feedAddress => ∃ e, env.latestAnswer feedAddress = Except.error e
  | none =>
    match mapGet "dexRouter" c.contracts.entries with
    | none => True
    | some dexRouter =>
        ∃ e, env.getAmountsOutDex dexRouter (10 ^ 18)
          [tokenAddress, (mapGet "wrappedNative" c.contracts.entries).getD "undefined"]
            = Except.error e

/-! Concrete inputs used to evaluate the statements below on closed
instances. -/

/-- A v2 protocol configuration. -/
def pcV2 : ProtocolConfig :=
  { version := "v2", routerAddress := "0xrouter2", quoterAddress := none, defaultFeeBps := 30 }

/-- A v3 protocol configuration with a 30 bps default fee. -/
def pcV3 : ProtocolConfig :=
  { version := "v3", routerAddress := "0xrouter3", quoterAddress := some "0xquoter",
    defaultFeeBps := 30 }

/-- A native currency with a registered comparison address. -/
def natCur : NativeCurrency :=
  { name := "Ether", symbol := "ETH", decimals := 18, address := some "0xETH" }

/-- Network metadata for chain 1. -/
def nwMeta : NetworkMetadata :=
  { chainId := 1, name := "Ethereum", rpcUrl := "http://rpc", nativeCurrency := natCur,
    blockExplorerUrl := "http://scan", enabled := true }

/-- A swap environment on a v2 chain where every remote read succeeds:
the router quotes 1000000 smallest units out. -/
def envV2 : SwapEnv :=
  { protocolConfig := some pcV2,
    network := some nwMeta,
    parseUnits := fun _ _ => 1500000,
    decimalsOf := fun _ => Except.ok 6,
    quoter := fun _ _ _ _ _ => Except.ok (1000000, 0, 0, 0),
    router := fun _ amountIn _ => Except.ok [amountIn, 1000000],
    wait := fun _ _ => Except.ok { status := "success" },
    nowSeconds := 1000 }

/-- The same environment on a v3 chain: the quoter returns 1000000. -/
def envV3 : SwapEnv :=
  { envV2 with protocolConfig := some pcV3 }

/-- Environment with no protocol configuration for the chain. -/
def envNoPc : SwapEnv :=
  { envV2 with protocolConfig := none }

/-- Environment whose decimals read rejects. -/
def envDecFail : SwapEnv :=
  { envV2 with decimalsOf := fun _ => Except.error "decimals failed" }

/-- v3 environment whose quoter read rejects. -/
def envQuoterFail : SwapEnv :=
  { envV3 with quoter := fun _ _ _ _ _ => Except.error "quoter failed" }

/-- v2 environment whose router read rejects. -/
def envRouterFail : SwapEnv :=
  { envV2 with router := fun _ _ _ => Except.error "router failed" }

/-- Environment whose receipt wait yields a reverted receipt. -/
def envRevert : SwapEnv :=
  { envV2 with wait := fun _ _ => Except.ok { status := "reverted" } }

/-- Token metadata registered first under (1, USDC). -/
def usdc1 : TokenData :=
  { chainId := 1, symbol := "USDC", address := "0xA0b8", decimals := 6, name := "USD Coin" }

/-- Token metadata registered second under the same (1, USDC) key, with a
different payload and lowercase spelling of the symbol. -/
def usdc2 : TokenData :=
  { chainId := 1, symbol := "usdc", address := "0xNEWER", decimals := 6, name := "USD Coin 2" }

/-- The registry after registering `usdc1` into the empty registry. -/
def regUsdc : TokenRegistry :=
  (TokenRegistry.empty.registerToken usdc1).2

/-- A network registry holding a protocol configuration for chain 1. -/
def nwRegWithPc : NetworkRegistry :=
  NetworkRegistry.empty.registerNetwork nwMeta (some pcV2)

/-- Chain configuration for the portfolio reads: one FOO token entry
with an oracle price feed configured. -/
def cfgC6 : ChainConfig :=
  { chainId := 1, name := "Ethereum", rpcUrl := "http://rpc",
    nativeCurrencySymbol := "ETH", nativeCurrencyDecimals := 18,
    contracts := { entries := [("FOO", "0xfoo")], priceFeeds := some [("0xfoo", "0xfeed")] } }

/-- Balances environment where the native balance read succeeds (2 ETH),
FOO's balance is zero, and FOO's oracle price feed read rejects. -/
def envBalZero : BalancesEnv :=
  { getBalance := fun _ => Except.ok 2000000000000000000,
    balanceOf := fun _ _ => Except.ok 0,
    readDecimals := fun _ => Except.ok 6,
    latestAnswer := fun _ => Except.error "oracle down",
    getAmountsOutDex := fun _ _ _ => Except.error "no dex",
    fetchNativePriceUsd := fun _ => Except.ok 2000 }

/-- The same environment with a positive FOO balance (150 units of a
6-decimals token). -/
def envBalPos : BalancesEnv :=
  { envBalZero with balanceOf := fun _ _ => Except.ok 150000000 }

/-- Replacement metadata for chain 1 with a different RPC endpoint. -/
def nwMeta2 : NetworkMetadata :=
  { nwMeta with rpcUrl := "http://rpc2" }

/-- The positive-FOO-balance environment with a zero native balance. -/
def envBalNatZero : BalancesEnv :=
  { envBalPos with getBalance := fun _ => Except.ok 0 }

/-- The portfolio `envBalNatZero` produces on `cfgC6`: the native entry
first (with zero balance), then the positive-balance FOO entry with the
degraded zero price. -/
def pC10 : WalletPortfolio :=
  { totalValue := 0,
    nativeBalance := 0,
    tokens :=
      [ { token := "0x0000000000000000000000000000000000000000", symbol := "ETH",
          balance := 0, decimals := 18, price := 2000, value := 0 },
        { token := "0xfoo", symbol := "FOO",
          balance := 150, decimals := 6, price := 0, value := 0 } ] }

/-- The quote `envV2` produces for swapping 0xAAA to 0xBBB: the router
responds `[1500000, 1000000]` and the second element is the output. -/
def quoteV2Sample : SwapQuoteResult :=
  { amountIn := 1500000,
    amountOut := 1000000,
    priceImpact := calculatePriceImpact 1500000 1000000,
    route := ["0xAAA", "0xBBB"] }

/-- The transaction `envV2` builds for that swap: a token-to-token v2
swap with the 0.5% slippage minimum `995000` and deadline `2200`. -/
def txV2Sample : PreparedTx :=
  { toAddr := "0xrouter2",
    data :=
      { functionName := "swapExactTokensForTokens",
        args := SwapCallArgs.v2TokensFor 1500000 995000 ["0xAAA", "0xBBB"] "0xME" 2200 },
    value := none }

/-- The transaction `envV3` builds for the same swap: a v3 single-hop
call with fee `30 * 100 = 3000`. -/
def txV3Sample : PreparedTx :=
  { toAddr := "0xrouter3",
    data :=
      { functionName := "exactInputSingle",
        args := SwapCallArgs.v3Single "0xAAA" "0xBBB" 3000 "0xME" 1500000 995000 0 },
    value := none }

/-- The quote `envV3` produces for that swap (the quoter reports
1000000 out). -/
def quoteV3Sample : SwapQuoteResult :=
  { amountIn := 1500000,
    amountOut := 1000000,
    priceImpact := calculatePriceImpact 1500000 1000000,
    route := ["0xAAA", "0xBBB"] }

/-! Lemmas about the map model. -/

theorem mapGet_mapSet_self {α β : Type} [DecidableEq α] (k : α) (v : β)
    (l : List (α × β)) : mapGet k (mapSet k v l) = some v := by
  induction l with
  | nil => simp [mapGet, mapSet]
  | cons p rest ih =>
    obtain ⟨k', v'⟩ := p
    by_cases h : k' = k
    · simp [mapSet, h, mapGet]
    · simp [mapSet, h, mapGet, ih]

theorem mapKeys_nil {α β : Type} : mapKeys ([] : List (α × β)) = [] := rfl

theorem mapKeys_cons {α β : Type} (p : α × β) (l : List (α × β)) :
    mapKeys (p :: l) = p.1 :: mapKeys l := rfl

theorem mapGet_mapSet_ne {α β : Type} [DecidableEq α] {k k' : α} (v : β)
    (l : List (α × β)) (h : k' ≠ k) : mapGet k' (mapSet k v l) = mapGet k' l := by
  have hne : ¬ k = k' := fun he => h he.symm
  induction l with
  | nil => simp [mapGet, mapSet, hne]
  | cons p rest ih =>
    obtain ⟨k'', v''⟩ := p
    by_cases hk : k'' = k
    · subst hk
      simp [mapSet, mapGet, hne]
    · simp [mapSet, hk, mapGet, ih]

theorem mapKeys_mapSet {α β : Type} [DecidableEq α] (k : α) (v : β)
    (l : List (α × β)) :
    mapKeys (mapSet k v l) = if k ∈ mapKeys l then mapKeys l else mapKeys l ++ [k] := by
  induction l with
  | nil => simp [mapKeys_nil, mapSet, mapKeys_cons]
  | cons p rest ih =>
    obtain ⟨k', v'⟩ := p
    by_cases h : k' = k
    · subst h
      simp [mapSet, mapKeys_cons]
    · have hne : ¬ k = k' := fun he => h he.symm
      simp only [mapSet, h, if_false, mapKeys_cons, List.mem_cons, hne, false_or, ih]
      by_cases hm : k ∈ mapKeys rest
      · simp [hm]
      · simp [hm]

theorem countKey_eq_zero_of_not_mem {α β : Type} [DecidableEq α] {k : α}
    {l : List (α × β)} (h : k ∉ mapKeys l) : countKey k l = 0 := by
  induction l with
  | nil => rfl
  | cons p rest ih =>
    obtain ⟨k', v'⟩ := p
    rw [mapKeys_cons] at h
    simp only [List.mem_cons, not_or] at h
    have hne : ¬ (k' = k) := fun he => h.1 he.symm
    simp [countKey, List.countP_cons, hne] at ih ⊢
    exact ih h.2

theorem countKey_mapSet_of_nodup {α β : Type} [DecidableEq α] (k : α) (v : β)
    {l : List (α × β)} (h : (mapKeys l).Nodup) :
    countKey k (mapSet k v l) = 1 := by
  induction l with
  | nil => simp [countKey, mapSet, List.countP_cons]
  | cons p rest ih =>
    obtain ⟨k', v'⟩ := p
    rw [mapKeys_cons, List.nodup_cons] at h
    by_cases hk : k' = k
    · subst hk
      have h0 : countKey k' rest = 0 := countKey_eq_zero_of_not_mem h.1
      simp [mapSet, countKey, List.countP_cons] at h0 ⊢
      exact h0
    · simp [mapSet, hk, countKey, List.countP_cons, hk] at ih ⊢
      exact ih h.2

theorem nodup_mapKeys_mapSet {α β : Type} [DecidableEq α] (k : α) (v : β)
    {l : List (α × β)} (h : (mapKeys l).Nodup) :
    (mapKeys (mapSet k v l)).Nodup := by
  rw [mapKeys_mapSet]
  by_cases hm : k ∈ mapKeys l
  · simpa [hm] using h
  · simp [hm, List.nodup_append, h]

/-! Lemmas about character and string case. -/

theorem char_toNat_ofNat_lt (n : Nat) (h : n < 55296) : (Char.ofNat n).toNat = n := by
  have hv : n.isValidChar := Or.inl h
  rw [Char.ofNat, dif_pos hv]
  rfl

theorem char_toLower_eq (c : Char) :
    c.toLower = if 65 ≤ c.toNat ∧ c.toNat ≤ 90 then Char.ofNat (c.toNat + 32) else c := rfl

theorem char_toUpper_eq (c : Char) :
    c.toUpper = if 97 ≤ c.toNat ∧ c.toNat ≤ 122 then Char.ofNat (c.toNat - 32) else c := rfl

theorem char_toUpper_toLower (c : Char) : c.toLower.toUpper = c.toUpper := by
  by_cases h : 65 ≤ c.toNat ∧ c.toNat ≤ 90
  · have h32 : (Char.ofNat (c.toNat + 32)).toNat = c.toNat + 32 :=
      char_toNat_ofNat_lt _ (by omega)
    rw [char_toLower_eq, if_pos h, char_toUpper_eq (Char.ofNat (c.toNat + 32)),
      char_toUpper_eq c, h32,
      if_pos (show 97 ≤ c.toNat + 32 ∧ c.toNat + 32 ≤ 122 by omega),
      if_neg (show ¬ (97 ≤ c.toNat ∧ c.toNat ≤ 122) by omega),
      Nat.add_sub_cancel, Char.ofNat_toNat]
  · rw [char_toLower_eq, if_neg h]

theorem char_toUpper_toUpper (c : Char) : c.toUpper.toUpper = c.toUpper := by
  by_cases h : 97 ≤ c.toNat ∧ c.toNat ≤ 122
  · have h32 : (Char.ofNat (c.toNat - 32)).toNat = c.toNat - 32 :=
      char_toNat_ofNat_lt _ (by omega)
    rw [char_toUpper_eq c, if_pos h, char_toUpper_eq (Char.ofNat (c.toNat - 32)), h32,
      if_neg (show ¬ (97 ≤ c.toNat - 32 ∧ c.toNat - 32 ≤ 122) by omega)]
  · have hc : c.toUpper = c := by rw [char_toUpper_eq c, if_neg h]
    rw [hc]
    exact hc

theorem char_toUpper_of_caseVariant {c d : Char} (h : charCaseVariant c d = true) :
    d.toUpper = c.toUpper := by
  unfold charCaseVariant at h
  simp only [Bool.or_eq_true, beq_iff_eq] at h
  rcases h with (h | h) | h
  · rw [h]
  · rw [h, char_toUpper_toUpper]
  · rw [h, char_toUpper_toLower]

theorem map_toUpper_of_charsCaseVariant :
    ∀ cs ds : List Char, charsCaseVariant cs ds = true →
      ds.map Char.toUpper = cs.map Char.toUpper := by
  intro cs
  induction cs with
  | nil =>
    intro ds h
    cases ds with
    | nil => rfl
    | cons d ds => simp [charsCaseVariant] at h
  | cons c cs ih =>
    intro ds h
    cases ds with
    | nil => simp [charsCaseVariant] at h
    | cons d ds =>
      have h' := Bool.and_eq_true_iff.mp (by simpa [charsCaseVariant] using h)
      simp [char_toUpper_of_caseVariant h'.1, ih ds h'.2]

theorem strUpper_of_caseVariant {s t : String} (h : caseVariant s t = true) :
    strUpper t = strUpper s := by
  unfold strUpper
  rw [map_toUpper_of_charsCaseVariant s.data t.data (by simpa [caseVariant] using h)]

/-! Lemmas about the token registry. -/

theorem registerToken_snd_tokens (st : TokenRegistry) (m : TokenData) :
    (st.registerToken m).2.tokens =
      mapSet m.chainId
        (mapSet (strUpper m.symbol) m
          ((mapGet m.chainId
            (if mapContains m.chainId st.tokens then st.tokens
             else mapSet m.chainId [] st.tokens)).getD []))
        (if mapContains m.chainId st.tokens then st.tokens
         else mapSet m.chainId [] st.tokens) := rfl

theorem innerNodup_registerToken {st : TokenRegistry} (hwf : st.InnerNodup)
    (m : TokenData) : (st.registerToken m).2.InnerNodup := by
  intro cid inner hget
  rw [registerToken_snd_tokens] at hget
  set tokens' :=
    (if mapContains m.chainId st.tokens then st.tokens
     else mapSet m.chainId [] st.tokens) with htokens'
  have hinner' : ∀ l, mapGet m.chainId tokens' = some l → (mapKeys l).Nodup := by
    intro l hl
    by_cases hc : mapContains m.chainId st.tokens
    · rw [htokens'] at hl
      simp [hc] at hl
      exact hwf m.chainId l hl
    · rw [htokens'] at hl
      simp [hc, mapGet_mapSet_self] at hl
      subst hl
      simp [mapKeys]
  by_cases hcid : cid = m.chainId
  · subst hcid
    rw [mapGet_mapSet_self] at hget
    injection hget with hget
    subst hget
    apply nodup_mapKeys_mapSet
    cases hv : mapGet m.chainId tokens' with
    | none => simp [hv, mapKeys]
    | some l => simpa [hv] using hinner' l hv
  · rw [mapGet_mapSet_ne _ _ hcid] at hget
    by_cases hc : mapContains m.chainId st.tokens
    · rw [htokens'] at hget
      simp [hc] at hget
      exact hwf cid inner hget
    · rw [htokens'] at hget
      simp [hc] at hget
      rw [mapGet_mapSet_ne _ _ hcid] at hget
      exact hwf cid inner hget

theorem nodup_networkTokens (st : TokenRegistry) (hwf : st.InnerNodup) (cid : Nat) :
    (mapKeys ((mapGet cid
      (if mapContains cid st.tokens then st.tokens
       else mapSet cid [] st.tokens)).getD [])).Nodup := by
  by_cases hc : mapContains cid st.tokens
  · rw [if_pos hc]
    cases hv : mapGet cid st.tokens with
    | none => simp [hv, mapKeys]
    | some l => simpa [hv] using hwf cid l hv
  · rw [if_neg hc, mapGet_mapSet_self]
    simp [mapKeys]

theorem registerToken_getToken_self (st : TokenRegistry) (m : TokenData) :
    (st.registerToken m).2.getToken m.symbol m.chainId = some m := by
  unfold TokenRegistry.getToken
  rw [registerToken_snd_tokens, mapGet_mapSet_self]
  exact mapGet_mapSet_self _ _ _

theorem registerToken_countKey (st : TokenRegistry) (m : TokenData)
    (hwf : st.InnerNodup) :
    ∀ inner, mapGet m.chainId (st.registerToken m).2.tokens = some inner →
      countKey (strUpper m.symbol) inner = 1 := by
  intro inner hget
  rw [registerToken_snd_tokens, mapGet_mapSet_self] at hget
  injection hget with hget
  subst hget
  exact countKey_mapSet_of_nodup _ _ (nodup_networkTokens st hwf m.chainId)

/-- C7: registering twice under the same (chainId, symbol) key:
the second `registerToken` call returns `true`, a subsequent `getToken`
returns exactly the second payload, and the per-chain map holds exactly
one entry under that key. -/
theorem C7_registerToken_overwrites (st : TokenRegistry) (m1 m2 : TokenData)
    (hwf : st.InnerNodup) (hc : m2.chainId = m1.chainId)
    (hs : strUpper m2.symbol = strUpper m1.symbol) :
    ((st.registerToken m1).2.registerToken m2).1 = true
    ∧ ((st.registerToken m1).2.registerToken m2).2.getToken m2.symbol m2.chainId = some m2
    ∧ ((st.registerToken m1).2.registerToken m2).2.getToken m1.symbol m1.chainId = some m2
    ∧ ∀ inner,
        mapGet m2.chainId ((st.registerToken m1).2.registerToken m2).2.tokens = some inner →
          countKey (strUpper m2.symbol) inner = 1 := by
  have hwf1 : (st.registerToken m1).2.InnerNodup := innerNodup_registerToken hwf m1
  have hself : ((st.registerToken m1).2.registerToken m2).2.getToken m2.symbol m2.chainId
      = some m2 := registerToken_getToken_self _ m2
  refine ⟨rfl, hself, ?_, registerToken_countKey _ m2 hwf1⟩
  have heq : ((st.registerToken m1).2.registerToken m2).2.getToken m1.symbol m1.chainId
      = ((st.registerToken m1).2.registerToken m2).2.getToken m2.symbol m2.chainId := by
    unfold TokenRegistry.getToken
    rw [← hc, ← hs]
  rw [heq]
  exact hself

/-- Witness for C7 on concrete data: `usdc2` registered after `usdc1`
into the empty registry. -/
theorem C7_registerToken_overwrites_witness :
    TokenRegistry.InnerNodup TokenRegistry.empty
    ∧ usdc2.chainId = usdc1.chainId
    ∧ strUpper usdc2.symbol = strUpper usdc1.symbol
    ∧ ((TokenRegistry.empty.registerToken usdc1).2.registerToken usdc2).1 = true
    ∧ ((TokenRegistry.empty.registerToken usdc1).2.registerToken
        usdc2).2.getToken usdc2.symbol usdc2.chainId = some usdc2
    ∧ countKey (strUpper usdc2.symbol) [(strUpper usdc1.symbol, usdc2)] = 1 :=
  have hwf : TokenRegistry.InnerNodup TokenRegistry.empty := fun _ inner h => by
    simp [TokenRegistry.empty, mapGet] at h
  ⟨hwf, rfl, by decide,
   (C7_registerToken_overwrites TokenRegistry.empty usdc1 usdc2 hwf rfl (by decide)).1,
   (C7_registerToken_overwrites TokenRegistry.empty usdc1 usdc2 hwf rfl (by decide)).2.1,
   (C7_registerToken_overwrites TokenRegistry.empty usdc1 usdc2 hwf rfl
      (by decide)).2.2.2 [(strUpper usdc1.symbol, usdc2)] (by decide)⟩

/-- C8: `getToken` is case-insensitive — after registering a token, any
casing variant of its symbol resolves to the same (and the registered)
metadata. -/
theorem C8_getToken_caseInsensitive (st : TokenRegistry) (m : TokenData) (s : String)
    (hv : caseVariant m.symbol s = true) :
    (st.registerToken m).2.getToken s m.chainId
      = (st.registerToken m).2.getToken m.symbol m.chainId
    ∧ (st.registerToken m).2.getToken s m.chainId = some m := by
  have hu : strUpper s = strUpper m.symbol := strUpper_of_caseVariant hv
  have h2 : (st.registerToken m).2.getToken s m.chainId
      = (st.registerToken m).2.getToken m.symbol m.chainId := by
    unfold TokenRegistry.getToken
    rw [hu]
  exact ⟨h2, h2.trans (registerToken_getToken_self st m)⟩

/-- Witness for C8: after registering USDC on chain 1, looking it up as
"usdc" equals looking it up as "USDC". -/
theorem C8_getToken_caseInsensitive_witness :
    caseVariant usdc1.symbol "usdc" = true
    ∧ (TokenRegistry.empty.registerToken usdc1).2.getToken "usdc" usdc1.chainId
        = (TokenRegistry.empty.registerToken usdc1).2.getToken usdc1.symbol usdc1.chainId
    ∧ (TokenRegistry.empty.registerToken usdc1).2.getToken "usdc" usdc1.chainId = some usdc1 :=
  ⟨by decide,
   (C8_getToken_caseInsensitive TokenRegistry.empty usdc1 "usdc" (by decide)).1,
   (C8_getToken_caseInsensitive TokenRegistry.empty usdc1 "usdc" (by decide)).2⟩

/-- C9: re-registering a network without a protocol configuration
replaces the metadata entry but leaves a previously registered protocol
configuration in place. -/
theorem C9_registerNetwork_preserves_protocol (st : NetworkRegistry)
    (m : NetworkMetadata) (pc : ProtocolConfig)
    (h : st.getProtocolConfig m.chainId = some pc) :
    (st.registerNetwork m none).getProtocolConfig m.chainId = some pc
    ∧ (st.registerNetwork m none).getNetwork m.chainId = some m := by
  constructor
  · simpa [NetworkRegistry.registerNetwork, NetworkRegistry.getProtocolConfig] using h
  · simp [NetworkRegistry.registerNetwork, NetworkRegistry.getNetwork, mapGet_mapSet_self]

/-- Witness for C9: chain 1 keeps its v2 protocol configuration after
the metadata is replaced with no protocol argument. -/
theorem C9_registerNetwork_preserves_protocol_witness :
    nwRegWithPc.getProtocolConfig nwMeta2.chainId = some pcV2
    ∧ (nwRegWithPc.registerNetwork nwMeta2 none).getProtocolConfig nwMeta2.chainId = some pcV2
    ∧ (nwRegWithPc.registerNetwork nwMeta2 none).getNetwork nwMeta2.chainId = some nwMeta2 :=
  have h : nwRegWithPc.getProtocolConfig nwMeta2.chainId = some pcV2 := by decide
  ⟨h, (C9_registerNetwork_preserves_protocol nwRegWithPc nwMeta2 pcV2 h).1,
   (C9_registerNetwork_preserves_protocol nwRegWithPc nwMeta2 pcV2 h).2⟩

/-- C1: on a chain whose protocol version is not v3, `getQuote` issues
exactly one router call, `getAmountsOut` with the pair `(amountIn, path)`
where `path = [baseToken, outputToken]` has length 2, and returns the
second element of the returned amounts as `amountOut`. -/
theorem C1_v2_getAmountsOut (env : SwapEnv) (base out amount : String)
    (pc : ProtocolConfig) (d : Nat) (amounts : List Nat)
    (hpc : env.protocolConfig = some pc) (hv : pc.version ≠ "v3")
    (hd : env.decimalsOf base = Except.ok d)
    (hr : env.router pc.routerAddress (env.parseUnits amount d) [base, out]
      = Except.ok amounts)
    (hlen : amounts.length = 2) :
    (getQuote env base out amount).2
      = [RemoteCall.decimalsRead base,
         RemoteCall.routerAmounts pc.routerAddress (env.parseUnits amount d) [base, out]]
    ∧ ([base, out] : List String).length = 2
    ∧ ∃ r, (getQuote env base out amount).1 = Except.ok r
        ∧ amounts[1]? = some r.amountOut
        ∧ r.route = [base, out]
        ∧ r.amountIn = env.parseUnits amount d := by
  obtain ⟨a0, a1, ha⟩ : ∃ a0 a1, amounts = [a0, a1] := by
    match amounts, hlen with
    | [a0, a1], _ => exact ⟨a0, a1, rfl⟩
  subst ha
  have hq : getQuote env base out amount
      = (Except.ok { amountIn := env.parseUnits amount d,
                     amountOut := a1,
                     priceImpact := calculatePriceImpact (env.parseUnits amount d) a1,
                     route := [base, out] },
         [RemoteCall.decimalsRead base,
          RemoteCall.routerAmounts pc.routerAddress (env.parseUnits amount d) [base, out]]) := by
    unfold getQuote
    rw [hpc]
    simp only [hd, if_neg hv, hr]
    rfl
  rw [hq]
  exact ⟨rfl, rfl, _, rfl, rfl, rfl, rfl⟩

/-- Witness for C1: concrete v2 environment, router response
`[1500000, 1000000]`, output amount `1000000`. -/
theorem C1_v2_getAmountsOut_witness :
    envV2.protocolConfig = some pcV2
    ∧ pcV2.version ≠ "v3"
    ∧ envV2.decimalsOf "0xAAA" = Except.ok 6
    ∧ envV2.router pcV2.routerAddress (envV2.parseUnits "1.5" 6) ["0xAAA", "0xBBB"]
        = Except.ok [1500000, 1000000]
    ∧ ([1500000, 1000000] : List Nat).length = 2
    ∧ ((getQuote envV2 "0xAAA" "0xBBB" "1.5").2
        = [RemoteCall.decimalsRead "0xAAA",
           RemoteCall.routerAmounts pcV2.routerAddress (envV2.parseUnits "1.5" 6)
             ["0xAAA", "0xBBB"]]
      ∧ (["0xAAA", "0xBBB"] : List String).length = 2
      ∧ ∃ r, (getQuote envV2 "0xAAA" "0xBBB" "1.5").1 = Except.ok r
          ∧ ([1500000, 1000000] : List Nat)[1]? = some r.amountOut
          ∧ r.route = ["0xAAA", "0xBBB"]
          ∧ r.amountIn = envV2.parseUnits "1.5" 6) :=
  ⟨rfl, by decide, rfl, rfl, rfl,
   C1_v2_getAmountsOut envV2 "0xAAA" "0xBBB" "1.5" pcV2 6 [1500000, 1000000]
     rfl (by decide) rfl rfl rfl⟩

theorem prepare_ok_shape (env : SwapEnv)
    (inputToken outputToken amount walletAddress : String) (tx : PreparedTx)
    (hp : (prepareSwapTransaction env inputToken outputToken amount walletAddress).1
      = Except.ok tx) :
    ∃ pc network r, env.protocolConfig = some pc ∧ env.network = some network
      ∧ (getQuote env inputToken outputToken amount).1 = Except.ok r
      ∧ tx = { toAddr := pc.routerAddress,
               data :=
                 if pc.version = "v3" then
                   { functionName :=
                       if isNativeTokenOf network inputToken then "exactInputSingleETH"
                       else "exactInputSingle",
                     args := SwapCallArgs.v3Single inputToken outputToken
                       (pc.defaultFeeBps * 100) walletAddress r.amountIn
                       (r.amountOut * (10000 - SLIPPAGE_BPS) / 10000) 0 }
                 else if isNativeTokenOf network inputToken then
                   { functionName := "swapExactETHForTokens",
                     args := SwapCallArgs.v2ETHForTokens
                       (r.amountOut * (10000 - SLIPPAGE_BPS) / 10000)
                       [inputToken, outputToken] walletAddress (env.nowSeconds + 1200) }
                 else if isNativeTokenOf network outputToken then
                   { functionName := "swapExactTokensForETH",
                     args := SwapCallArgs.v2TokensFor r.amountIn
                       (r.amountOut * (10000 - SLIPPAGE_BPS) / 10000)
                       [inputToken, outputToken] walletAddress (env.nowSeconds + 1200) }
                 else
                   { functionName := "swapExactTokensForTokens",
                     args := SwapCallArgs.v2TokensFor r.amountIn
                       (r.amountOut * (10000 - SLIPPAGE_BPS) / 10000)
                       [inputToken, outputToken] walletAddress (env.nowSeconds + 1200) },
               value := if isNativeTokenOf network inputToken then some r.amountIn
                 else none } := by
  unfold prepareSwapTransaction at hp
  cases hpc : env.protocolConfig with
  | none => rw [hpc] at hp; simp at hp
  | some pc =>
  cases hnet : env.network with
  | none => rw [hpc, hnet] at hp; simp at hp
  | some network =>
  rw [hpc, hnet] at hp
  dsimp only at hp
  refine ⟨pc, network, ?_⟩
  cases hb : isNativeTokenOf network inputToken with
  | true =>
    rw [hb] at hp
    simp only [reduceIte] at hp
    rcases hgq : getQuote env inputToken outputToken amount with ⟨q, qtrace⟩
    rw [hgq] at hp
    cases q with
    | error e => simp at hp
    | ok quote =>
      dsimp only at hp
      injection hp with hp
      subst hp
      exact ⟨quote, rfl, rfl, rfl, by simp⟩
  | false =>
    simp only [hb, Bool.false_eq_true, if_false, reduceIte] at hp
    cases hdec : env.decimalsOf inputToken with
    | error e => rw [hdec] at hp; simp at hp
    | ok d =>
    rw [hdec] at hp
    dsimp only at hp
    rcases hgq : getQuote env inputToken outputToken amount with ⟨q, qtrace⟩
    rw [hgq] at hp
    cases q with
    | error e => simp at hp
    | ok quote =>
      dsimp only at hp
      injection hp with hp
      subst hp
      exact ⟨quote, rfl, rfl, rfl, by simp⟩

/-- C2: the transaction builder computes the minimum output from the
quoted output as `quoteOut * (10000 - SLIPPAGE_BPS) / 10000` in
truncating integer arithmetic, with `SLIPPAGE_BPS = 50`. -/
theorem C2_slippage_minOut (env : SwapEnv)
    (inputToken outputToken amount walletAddress : String)
    (r : SwapQuoteResult) (tx : PreparedTx)
    (hq : (getQuote env inputToken outputToken amount).1 = Except.ok r)
    (hp : (prepareSwapTransaction env inputToken outputToken amount walletAddress).1
      = Except.ok tx) :
    tx.data.args.amountOutMinArg = r.amountOut * (10000 - SLIPPAGE_BPS) / 10000
    ∧ SLIPPAGE_BPS = 50 := by
  obtain ⟨pc, network, r', _, _, hq', htx⟩ :=
    prepare_ok_shape env inputToken outputToken amount walletAddress tx hp
  rw [hq] at hq'
  injection hq' with hq'
  subst hq'
  subst htx
  refine ⟨?_, rfl⟩
  by_cases hv : pc.version = "v3"
  · simp [hv, SwapCallArgs.amountOutMinArg]
  · by_cases hni : isNativeTokenOf network inputToken
    · simp [hv, hni, SwapCallArgs.amountOutMinArg]
    · by_cases hno : isNativeTokenOf network outputToken
      · simp [hv, hni, hno, SwapCallArgs.amountOutMinArg]
      · simp [hv, hni, hno, SwapCallArgs.amountOutMinArg]

/-- Witness for C2: a quoted output of 1000000 at the default 50 bps
slippage yields exactly 995000 (truncating division, no rounding up). -/
theorem C2_slippage_minOut_witness :
    (getQuote envV2 "0xAAA" "0xBBB" "1.5").1 = Except.ok quoteV2Sample
    ∧ (prepareSwapTransaction envV2 "0xAAA" "0xBBB" "1.5" "0xME").1 = Except.ok txV2Sample
    ∧ txV2Sample.data.args.amountOutMinArg
        = quoteV2Sample.amountOut * (10000 - SLIPPAGE_BPS) / 10000
    ∧ quoteV2Sample.amountOut = 1000000
    ∧ txV2Sample.data.args.amountOutMinArg = 995000 :=
  ⟨rfl, rfl,
   (C2_slippage_minOut envV2 "0xAAA" "0xBBB" "1.5" "0xME" quoteV2Sample txV2Sample
      rfl rfl).1,
   rfl, by decide⟩

/-- C3: on a v3 chain the builder selects `exactInputSingle` for a
non-native input (`exactInputSingleETH` for a native one) and places
`defaultFeeBps * 100` as the fee argument of the encoded call. -/
theorem C3_v3_functionName_fee (env : SwapEnv)
    (inputToken outputToken amount walletAddress : String)
    (pc : ProtocolConfig) (network : NetworkMetadata) (tx : PreparedTx)
    (hpc : env.protocolConfig = some pc) (hnet : env.network = some network)
    (hv : pc.version = "v3")
    (hp : (prepareSwapTransaction env inputToken outputToken amount walletAddress).1
      = Except.ok tx) :
    (isNativeTokenOf network inputToken = false →
      tx.data.functionName = "exactInputSingle")
    ∧ (isNativeTokenOf network inputToken = true →
      tx.data.functionName = "exactInputSingleETH")
    ∧ tx.data.args.feeArg = some (pc.defaultFeeBps * 100) := by
  obtain ⟨pc', network', r, hpc', hnet', hq', htx⟩ :=
    prepare_ok_shape env inputToken outputToken amount walletAddress tx hp
  rw [hpc] at hpc'
  injection hpc' with hpc'
  rw [hnet] at hnet'
  injection hnet' with hnet'
  subst hpc'
  subst hnet'
  subst htx
  refine ⟨?_, ?_, ?_⟩
  · intro hni
    simp [hv, hni, SwapCallArgs.feeArg]
  · intro hni
    simp [hv, hni, SwapCallArgs.feeArg]
  · simp [hv, SwapCallArgs.feeArg]

/-- Witness for C3: `envV3` has fee 30 bps; the built call uses
`exactInputSingle` with fee argument 3000. -/
theorem C3_v3_functionName_fee_witness :
    envV3.protocolConfig = some pcV3
    ∧ envV3.network = some nwMeta
    ∧ pcV3.version = "v3"
    ∧ (prepareSwapTransaction envV3 "0xAAA" "0xBBB" "1.5" "0xME").1 = Except.ok txV3Sample
    ∧ isNativeTokenOf nwMeta "0xAAA" = false
    ∧ txV3Sample.data.functionName = "exactInputSingle"
    ∧ txV3Sample.data.args.feeArg = some (pcV3.defaultFeeBps * 100)
    ∧ pcV3.defaultFeeBps * 100 = 3000 :=
  ⟨rfl, rfl, rfl, rfl, by decide,
   (C3_v3_functionName_fee envV3 "0xAAA" "0xBBB" "1.5" "0xME" pcV3 nwMeta txV3Sample
      rfl rfl rfl rfl).1 (by decide),
   (C3_v3_functionName_fee envV3 "0xAAA" "0xBBB" "1.5" "0xME" pcV3 nwMeta txV3Sample
      rfl rfl rfl rfl).2.2,
   by decide⟩

/-- C4: `executeSwap` issues exactly one receipt wait, with 2
confirmations; a non-success receipt status raises the
transaction-failed error carrying that status and no hash is returned,
while a success status returns the input hash. -/
theorem C4_monitor_receipt (env : SwapEnv) (txHash : String) (n : NetworkMetadata)
    (hn : env.network = some n) :
    (executeSwap env txHash).2 = [RemoteCall.waitReceipt txHash 2]
    ∧ (∀ receipt, env.wait txHash 2 = Except.ok receipt →
        (receipt.status ≠ "success" →
          (executeSwap env txHash).1
            = Except.error (ExecError.transactionFailed receipt.status))
        ∧ (receipt.status = "success" →
          (executeSwap env txHash).1 = Except.ok txHash)) := by
  unfold executeSwap
  rw [hn]
  cases hw : env.wait txHash 2 with
  | error e =>
    refine ⟨rfl, fun receipt hr => ?_⟩
    cases hr
  | ok receipt =>
    by_cases hs : receipt.status = "success"
    · refine ⟨by simp [hs], fun receipt' hr => ?_⟩
      injection hr with hr
      subst hr
      exact ⟨fun hne => absurd hs hne, fun _ => by simp [hs]⟩
    · refine ⟨by simp [hs], fun receipt' hr => ?_⟩
      injection hr with hr
      subst hr
      exact ⟨fun _ => by simp [hs], fun hsu => absurd hsu hs⟩

/-- Witness for C4: a reverted receipt raises the transaction-failed
error with status "reverted"; a success receipt returns the hash. -/
theorem C4_monitor_receipt_witness :
    envRevert.network = some nwMeta
    ∧ (executeSwap envRevert "0xhash").2 = [RemoteCall.waitReceipt "0xhash" 2]
    ∧ envRevert.wait "0xhash" 2 = Except.ok { status := "reverted" }
    ∧ (executeSwap envRevert "0xhash").1
        = Except.error (ExecError.transactionFailed "reverted")
    ∧ (executeSwap envV2 "0xhash").1 = Except.ok "0xhash" :=
  ⟨rfl,
   (C4_monitor_receipt envRevert "0xhash" nwMeta rfl).1,
   rfl,
   ((C4_monitor_receipt envRevert "0xhash" nwMeta rfl).2 { status := "reverted" } rfl).1
     (by decide),
   ((C4_monitor_receipt envV2 "0xhash" nwMeta rfl).2 { status := "success" } rfl).2 rfl⟩

/-- C5: `getQuote` fails with the configuration error when the chain has
no protocol configuration; a failing decimals, quoter or router read
propagates as a quote-unavailable error; and every successful quote's
output amount is read from an actual quoter or router response. -/
theorem C5_quote_error_propagation (env : SwapEnv) (base out amount : String) :
    (env.protocolConfig = none →
      (getQuote env base out amount).1 = Except.error QuoteError.configurationError)
    ∧ (∀ pc e, env.protocolConfig = some pc →
        env.decimalsOf base = Except.error e →
        (getQuote env base out amount).1 = Except.error (QuoteError.quoteUnavailable e))
    ∧ (∀ pc d e, env.protocolConfig = some pc → pc.version = "v3" →
        env.decimalsOf base = Except.ok d →
        env.quoter (pc.quoterAddress.getD "") base out (env.parseUnits amount d)
          (pc.defaultFeeBps * 100) = Except.error e →
        (getQuote env base out amount).1 = Except.error (QuoteError.quoteUnavailable e))
    ∧ (∀ pc d e, env.protocolConfig = some pc → pc.version ≠ "v3" →
        env.decimalsOf base = Except.ok d →
        env.router pc.routerAddress (env.parseUnits amount d) [base, out]
          = Except.error e →
        (getQuote env base out amount).1 = Except.error (QuoteError.quoteUnavailable e))
    ∧ (∀ r, (getQuote env base out amount).1 = Except.ok r →
        ∃ pc d, env.protocolConfig = some pc ∧ env.decimalsOf base = Except.ok d
          ∧ ((pc.version = "v3"
              ∧ ∃ q, env.quoter (pc.quoterAddress.getD "") base out
                  (env.parseUnits amount d) (pc.defaultFeeBps * 100) = Except.ok q
                ∧ r.amountOut = q.1)
            ∨ (pc.version ≠ "v3"
              ∧ ∃ amounts, env.router pc.routerAddress (env.parseUnits amount d)
                  [base, out] = Except.ok amounts
                ∧ r.amountOut = amounts.getD 1 0))) := by
  refine ⟨?_, ?_, ?_, ?_, ?_⟩
  · intro hpc
    unfold getQuote
    rw [hpc]
  · intro pc e hpc hd
    unfold getQuote
    rw [hpc]
    simp only [hd]
  · intro pc d e hpc hv hd hq
    unfold getQuote
    rw [hpc]
    simp only [hd, if_pos hv, hq]
  · intro pc d e hpc hv hd hr
    unfold getQuote
    rw [hpc]
    simp only [hd, if_neg hv, hr]
  · intro r hok
    unfold getQuote at hok
    cases hpc : env.protocolConfig with
    | none => rw [hpc] at hok; cases hok
    | some pc =>
    rw [hpc] at hok
    cases hd : env.decimalsOf base with
    | error e =>
      simp only [hd] at hok
      cases hok
    | ok d =>
    simp only [hd] at hok
    refine ⟨pc, d, rfl, rfl, ?_⟩
    by_cases hv : pc.version = "v3"
    · rw [if_pos hv] at hok
      cases hq : env.quoter (pc.quoterAddress.getD "") base out
          (env.parseUnits amount d) (pc.defaultFeeBps * 100) with
      | error e => rw [hq] at hok; cases hok
      | ok q =>
        rw [hq] at hok
        injection hok with hok
        subst hok
        exact Or.inl ⟨hv, q, rfl, rfl⟩
    · rw [if_neg hv] at hok
      cases hr : env.router pc.routerAddress (env.parseUnits amount d) [base, out] with
      | error e => rw [hr] at hok; cases hok
      | ok amounts =>
        rw [hr] at hok
        injection hok with hok
        subst hok
        exact Or.inr ⟨hv, amounts, rfl, rfl⟩

/-- Witness for C5: the four failure environments produce the matching
errors, and the successful v2 environment's returned amount is the
second router response element. -/
theorem C5_quote_error_propagation_witness :
    envNoPc.protocolConfig = none
    ∧ (getQuote envNoPc "0xAAA" "0xBBB" "1.5").1
        = Except.error QuoteError.configurationError
    ∧ (getQuote envDecFail "0xAAA" "0xBBB" "1.5").1
        = Except.error (QuoteError.quoteUnavailable "decimals failed")
    ∧ (getQuote envQuoterFail "0xAAA" "0xBBB" "1.5").1
        = Except.error (QuoteError.quoteUnavailable "quoter failed")
    ∧ (getQuote envRouterFail "0xAAA" "0xBBB" "1.5").1
        = Except.error (QuoteError.quoteUnavailable "router failed")
    ∧ ∃ pc d, envV2.protocolConfig = some pc ∧ envV2.decimalsOf "0xAAA" = Except.ok d
        ∧ ((pc.version = "v3"
            ∧ ∃ q, envV2.quoter (pc.quoterAddress.getD "") "0xAAA" "0xBBB"
                (envV2.parseUnits "1.5" d) (pc.defaultFeeBps * 100) = Except.ok q
              ∧ quoteV2Sample.amountOut = q.1)
          ∨ (pc.version ≠ "v3"
            ∧ ∃ amounts, envV2.router pc.routerAddress (envV2.parseUnits "1.5" d)
                ["0xAAA", "0xBBB"] = Except.ok amounts
              ∧ quoteV2Sample.amountOut = amounts.getD 1 0)) :=
  ⟨rfl,
   (C5_quote_error_propagation envNoPc "0xAAA" "0xBBB" "1.5").1 rfl,
   (C5_quote_error_propagation envDecFail "0xAAA" "0xBBB" "1.5").2.1
     pcV2 "decimals failed" rfl rfl,
   (C5_quote_error_propagation envQuoterFail "0xAAA" "0xBBB" "1.5").2.2.1
     pcV3 6 "quoter failed" rfl rfl rfl rfl,
   (C5_quote_error_propagation envRouterFail "0xAAA" "0xBBB" "1.5").2.2.2.1
     pcV2 6 "router failed" rfl (by decide) rfl rfl,
   (C5_quote_error_propagation envV2 "0xAAA" "0xBBB" "1.5").2.2.2.2
     quoteV2Sample rfl⟩

/-! Lemmas about the balance aggregator. -/

theorem formatUnits_pos (b d : Nat) (hb : 0 < b) : 0 < formatUnits (b : Int) d := by
  unfold formatUnits
  apply div_pos
  · exact_mod_cast hb
  · positivity

theorem getTokenPrice_eq_zero_of_fails (env : BalancesEnv) (c : ChainConfig)
    (tokenAddress : String) (h : PriceLookupFails env c tokenAddress) :
    getTokenPrice env c tokenAddress = 0 := by
  unfold PriceLookupFails at h
  unfold getTokenPrice getPriceFromOracle getPriceFromDex
  cases hf : mapGet tokenAddress (priceFeedsOf c) with
  | some feed =>
    rw [hf] at h
    obtain ⟨e, he⟩ := h
    simp only [hf, Option.isSome_some, reduceIte, he]
  | none =>
    rw [hf] at h
    simp only [hf, Option.isSome_none, Bool.false_eq_true, reduceIte]
    cases hdr : mapGet "dexRouter" c.contracts.entries with
    | none => simp only [hdr]
    | some router =>
      rw [hdr] at h
      obtain ⟨e, he⟩ := h
      simp only [hdr, he]

theorem getTokenBalancesAux_ok (env : BalancesEnv) (c : ChainConfig) (address : String) :
    ∀ l bs, getTokenBalancesAux env c address l = Except.ok bs →
      List.Forall₂ (fun (p : String × String) b => ∃ balance decimals,
        env.balanceOf p.2 address = Except.ok balance
        ∧ env.readDecimals p.2 = Except.ok decimals
        ∧ b = mkTokenEntry env c p.1 p.2 balance decimals) l bs := by
  intro l
  induction l with
  | nil =>
    intro bs h
    injection h with h
    subst h
    exact List.Forall₂.nil
  | cons p rest ih =>
    intro bs h
    obtain ⟨sym, addr⟩ := p
    cases hb : env.balanceOf addr address with
    | error e =>
      simp only [getTokenBalancesAux, hb] at h
      cases h
    | ok balance =>
      cases hd : env.readDecimals addr with
      | error e =>
        simp only [getTokenBalancesAux, hb, hd] at h
        cases h
      | ok decimals =>
        cases hrest : getTokenBalancesAux env c address rest with
        | error e =>
          simp only [getTokenBalancesAux, hb, hd, hrest] at h
          cases h
        | ok rest' =>
          simp only [getTokenBalancesAux, hb, hd, hrest] at h
          injection h with h
          subst h
          exact List.Forall₂.cons ⟨balance, decimals, hb, hd, rfl⟩ (ih rest' hrest)

theorem getTokenBalancesAux_ok_of_reads (env : BalancesEnv) (c : ChainConfig)
    (address : String) :
    ∀ l, (∀ p ∈ l, (∃ b, env.balanceOf (Prod.snd p) address = Except.ok b)
        ∧ ∃ d, env.readDecimals (Prod.snd p) = Except.ok d) →
      ∃ bs, getTokenBalancesAux env c address l = Except.ok bs := by
  intro l
  induction l with
  | nil => exact fun _ => ⟨[], rfl⟩
  | cons p rest ih =>
    intro hall
    obtain ⟨sym, addr⟩ := p
    obtain ⟨⟨b, hb⟩, ⟨d, hd⟩⟩ := hall _ (List.mem_cons_self _ _)
    obtain ⟨bs, hbs⟩ := ih (fun q hq => hall q (List.mem_cons_of_mem _ hq))
    refine ⟨mkTokenEntry env c sym addr b d :: bs, ?_⟩
    unfold getTokenBalancesAux
    rw [hb, hd, hbs]

theorem exists_of_forall2_mem {α β : Type} {R : α → β → Prop} :
    ∀ {l : List α} {bs : List β}, List.Forall₂ R l bs →
      ∀ {a}, a ∈ l → ∃ b, b ∈ bs ∧ R a b := by
  intro l bs h
  induction h with
  | nil => intro a ha; cases ha
  | cons hr hrest ih =>
    intro a ha
    rcases List.mem_cons.mp ha with rfl | ha'
    · exact ⟨_, List.mem_cons_self _ _, hr⟩
    · obtain ⟨b, hb, hR⟩ := ih ha'
      exact ⟨b, List.mem_cons_of_mem _ hb, hR⟩

theorem getBalances_ok_elim (env : BalancesEnv) (c : ChainConfig) (address : String)
    (p : WalletPortfolio) (h : getBalances env c address = Except.ok p) :
    ∃ nb bs, env.getBalance address = Except.ok nb
      ∧ getTokenBalancesAux env c address (tokenEntriesOf c) = Except.ok bs
      ∧ p.tokens = mkNativeEntry env c nb
          :: bs.filter (fun b => decide (0 < b.balance))
      ∧ p.totalValue = (mkNativeEntry env c nb).value
          + ((bs.filter (fun b => decide (0 < b.balance))).map TokenBalance.value).sum := by
  unfold getBalances getTokenBalances at h
  cases hnb : env.getBalance address with
  | error e => rw [hnb] at h; cases h
  | ok nb =>
    rw [hnb] at h
    cases haux : getTokenBalancesAux env c address (tokenEntriesOf c) with
    | error e => rw [haux] at h; cases h
    | ok bs =>
      rw [haux] at h
      dsimp only at h
      injection h with h
      subst h
      exact ⟨nb, bs, rfl, rfl, rfl, rfl⟩

/-- C6 (amended): when the native balance read and all token balance and
decimals reads succeed and the price lookup for a configured token
fails, `getBalances` still returns a portfolio (it does not raise), the
native entry leads it, its total is the sum of all entry values, and —
provided the token's balance is positive (zero-balance tokens are
dropped by the balance filter) — the portfolio contains an entry for
that token with price 0 and value 0. -/
theorem C6_price_failure_zero_price (env : BalancesEnv) (c : ChainConfig) (address : String)
    (sym addr : String) (nb : Nat)
    (hnb : env.getBalance address = Except.ok nb)
    (hreads : ∀ p ∈ tokenEntriesOf c,
      (∃ b, env.balanceOf (Prod.snd p) address = Except.ok b)
      ∧ ∃ d, env.readDecimals (Prod.snd p) = Except.ok d)
    (hmem : (sym, addr) ∈ tokenEntriesOf c)
    (hfail : PriceLookupFails env c addr) :
    ∃ p, getBalances env c address = Except.ok p
      ∧ p.tokens.head? = some (mkNativeEntry env c nb)
      ∧ p.totalValue = (p.tokens.map TokenBalance.value).sum
      ∧ ∀ b d, env.balanceOf addr address = Except.ok b →
          env.readDecimals addr = Except.ok d → 0 < b →
          ∃ entry, entry ∈ p.tokens ∧ entry.symbol = sym ∧ entry.token = addr
            ∧ entry.price = 0 ∧ entry.value = 0 := by
  obtain ⟨bs, hbs⟩ := getTokenBalancesAux_ok_of_reads env c address (tokenEntriesOf c) hreads
  have hforall := getTokenBalancesAux_ok env c address (tokenEntriesOf c) bs hbs
  have hprice : getTokenPrice env c addr = 0 :=
    getTokenPrice_eq_zero_of_fails env c addr hfail
  refine ⟨{ totalValue := (mkNativeEntry env c nb).value
              + ((bs.filter (fun b => decide (0 < b.balance))).map TokenBalance.value).sum,
            nativeBalance := (mkNativeEntry env c nb).balance,
            tokens := mkNativeEntry env c nb
              :: bs.filter (fun b => decide (0 < b.balance)) }, ?_, rfl, ?_, ?_⟩
  · unfold getBalances getTokenBalances
    rw [hnb, hbs]
  · simp
  · intro b d hb hd hpos
    obtain ⟨entry, hentry_mem, b', d', hb', hd', hentry⟩ :=
      exists_of_forall2_mem hforall hmem
    have hbb : b = b' := by
      have := hb.symm.trans hb'
      injection this
    have hdd : d = d' := by
      have := hd.symm.trans hd'
      injection this
    subst hbb
    subst hdd
    subst hentry
    have hpos' : 0 < (mkTokenEntry env c (sym, addr).1 (sym, addr).2 b d).balance := by
      show 0 < formatUnits (b : Int) d
      exact formatUnits_pos b d hpos
    refine ⟨mkTokenEntry env c (sym, addr).1 (sym, addr).2 b d,
      List.mem_cons_of_mem _ (List.mem_filter.mpr ⟨hentry_mem, decide_eq_true hpos'⟩),
      rfl, rfl, ?_, ?_⟩
    · show getTokenPrice env c addr = 0
      exact hprice
    · show formatUnits (b : Int) d * getTokenPrice env c addr = 0
      rw [hprice, mul_zero]

/-- Counterexample to C6 as stated: with a zero FOO balance and its
price lookup failing, the portfolio is still produced but holds no FOO
entry at all (so it does not contain an entry with price "0" for that
token). -/
theorem C6_zero_balance_dropped :
    envBalZero.latestAnswer "0xfeed" = Except.error "oracle down"
    ∧ envBalZero.balanceOf "0xfoo" "0xwallet" = Except.ok 0
    ∧ getBalances envBalZero cfgC6 "0xwallet"
        = Except.ok
          { totalValue := 4000,
            nativeBalance := 2,
            tokens :=
              [ { token := "0x0000000000000000000000000000000000000000", symbol := "ETH",
                  balance := 2, decimals := 18, price := 2000, value := 4000 } ] }
    ∧ (List.filter (fun e => e.symbol == "FOO")
        [ ({ token := "0x0000000000000000000000000000000000000000", symbol := "ETH",
             balance := 2, decimals := 18, price := 2000, value := 4000 } : TokenBalance) ])
        = [] := by
  exact ⟨rfl, rfl, by with_unfolding_all rfl, by decide⟩

/-- Witness for the amended C6: FOO has balance 150000000 (6 decimals)
and its oracle feed is down; the portfolio is returned with a FOO entry
of price 0 and value 0. -/
theorem C6_price_failure_zero_price_witness :
    envBalPos.getBalance "0xwallet" = Except.ok 2000000000000000000
    ∧ PriceLookupFails envBalPos cfgC6 "0xfoo"
    ∧ ∃ p, getBalances envBalPos cfgC6 "0xwallet" = Except.ok p
        ∧ p.tokens.head? = some (mkNativeEntry envBalPos cfgC6 2000000000000000000)
        ∧ p.totalValue = (p.tokens.map TokenBalance.value).sum
        ∧ ∀ b d, envBalPos.balanceOf "0xfoo" "0xwallet" = Except.ok b →
            envBalPos.readDecimals "0xfoo" = Except.ok d → 0 < b →
            ∃ entry, entry ∈ p.tokens ∧ entry.symbol = "FOO" ∧ entry.token = "0xfoo"
              ∧ entry.price = 0 ∧ entry.value = 0 :=
  ⟨rfl, ⟨"oracle down", rfl⟩,
   C6_price_failure_zero_price envBalPos cfgC6 "0xwallet" "FOO" "0xfoo"
     2000000000000000000 rfl (fun _ _ => ⟨⟨150000000, rfl⟩, ⟨6, rfl⟩⟩)
     (by decide) ⟨"oracle down", rfl⟩⟩

/-- C10: a successful portfolio read lists the native entry first (even
for a zero native balance), every other entry has a strictly positive
balance, and every configured token with a positive balance appears. -/
theorem C10_native_first_positive_filter (env : BalancesEnv) (c : ChainConfig)
    (address : String) (p : WalletPortfolio)
    (h : getBalances env c address = Except.ok p) :
    (∃ nb, env.getBalance address = Except.ok nb
      ∧ p.tokens.head? = some (mkNativeEntry env c nb)
      ∧ (mkNativeEntry env c nb).token = "0x0000000000000000000000000000000000000000"
      ∧ (mkNativeEntry env c nb).symbol = c.nativeCurrencySymbol)
    ∧ (∀ e ∈ p.tokens.tail, 0 < e.balance)
    ∧ (∀ sym addr, (sym, addr) ∈ tokenEntriesOf c → ∀ b d,
        env.balanceOf addr address = Except.ok b →
        env.readDecimals addr = Except.ok d → 0 < b →
        ∃ entry, entry ∈ p.tokens.tail ∧ entry.symbol = sym ∧ entry.token = addr
          ∧ entry.balance = formatUnits (b : Int) d) := by
  obtain ⟨nb, bs, hnb, hbs, htoks, htot⟩ := getBalances_ok_elim env c address p h
  have hforall := getTokenBalancesAux_ok env c address (tokenEntriesOf c) bs hbs
  have htail : p.tokens.tail = bs.filter (fun b => decide (0 < b.balance)) := by
    rw [htoks]
    rfl
  refine ⟨⟨nb, hnb, by rw [htoks]; rfl, rfl, rfl⟩, ?_, ?_⟩
  · intro e he
    rw [htail] at he
    exact of_decide_eq_true (List.mem_filter.mp he).2
  · intro sym addr hmem b d hb hd hpos
    obtain ⟨entry, hentry_mem, b', d', hb', hd', hentry⟩ :=
      exists_of_forall2_mem hforall hmem
    have hbb : b = b' := by
      have := hb.symm.trans hb'
      injection this
    have hdd : d = d' := by
      have := hd.symm.trans hd'
      injection this
    subst hbb
    subst hdd
    subst hentry
    have hpos' : 0 < (mkTokenEntry env c (sym, addr).1 (sym, addr).2 b d).balance := by
      show 0 < formatUnits (b : Int) d
      exact formatUnits_pos b d hpos
    refine ⟨mkTokenEntry env c (sym, addr).1 (sym, addr).2 b d, ?_, rfl, rfl, rfl⟩
    rw [htail]
    exact List.mem_filter.mpr ⟨hentry_mem, decide_eq_true hpos'⟩

/-- Witness for C10: zero native balance and a positive FOO balance —
the native entry is first and the FOO entry appears with balance 150. -/
theorem C10_native_first_positive_filter_witness :
    getBalances envBalNatZero cfgC6 "0xwallet" = Except.ok pC10
    ∧ ((∃ nb, envBalNatZero.getBalance "0xwallet" = Except.ok nb
        ∧ pC10.tokens.head? = some (mkNativeEntry envBalNatZero cfgC6 nb)
        ∧ (mkNativeEntry envBalNatZero cfgC6 nb).token
            = "0x0000000000000000000000000000000000000000"
        ∧ (mkNativeEntry envBalNatZero cfgC6 nb).symbol = cfgC6.nativeCurrencySymbol)
      ∧ (∀ e ∈ pC10.tokens.tail, 0 < e.balance)
      ∧ (∀ sym addr, (sym, addr) ∈ tokenEntriesOf cfgC6 → ∀ b d,
          envBalNatZero.balanceOf addr "0xwallet" = Except.ok b →
          envBalNatZero.readDecimals addr = Except.ok d → 0 < b →
          ∃ entry, entry ∈ pC10.tokens.tail ∧ entry.symbol = sym ∧ entry.token = addr
            ∧ entry.balance = formatUnits (b : Int) d)) :=
  have hp : getBalances envBalNatZero cfgC6 "0xwallet" = Except.ok pC10 := by
    with_unfolding_all rfl
  ⟨hp, C10_native_first_positive_filter envBalNatZero cfgC6 "0xwallet" pC10 hp⟩

end GodsEliza
